import Mathlib

/-!
Shallow embedding of `src/model.py`: a variational autoencoder (VAE) for
28×28 grayscale images together with a latent-space interpolation wrapper.

Tensors are modelled as a shape (list of dimension sizes) together with
row-major flattened real-valued data.  Operations that can fail on a shape
mismatch (einops rearrange, `nn.Linear` on a wrongly sized input) return
`Option`; the `assert` statements in the two `forward` methods are modelled
by an `Except ModelError` result.  The standard-normal noise drawn by
`torch.randn_like` is modelled by an explicit noise source, a function from
a shape and a flat index to a real number, so that pinned/deterministic
noise is expressible.  Device moves (`.to(device)`) are value-preserving
and are modelled as the identity.
-/

/-- A tensor: a shape and its row-major flattened data. -/
structure Tensor where
  shape : List ℕ
  data : List ℝ

/-- A tensor is well-formed when its data has exactly as many entries as the
shape demands. -/
def Tensor.wf (t : Tensor) : Prop := t.data.length = t.shape.prod

/-- Elementwise map over a tensor (shape unchanged). -/
def Tensor.emap (f : ℝ → ℝ) (t : Tensor) : Tensor := ⟨t.shape, t.data.map f⟩

/-- Flat-index read with default 0 (all reads in this development are in
range for well-formed inputs). -/
def Tensor.entry (t : Tensor) (i : ℕ) : ℝ := t.data.getD i 0

/-- Elementwise sum of two tensors of identical shape (`+` in torch). -/
def tadd (a b : Tensor) : Tensor := ⟨a.shape, List.zipWith (· + ·) a.data b.data⟩

/-- Elementwise (Hadamard) product of two tensors of identical shape
(`*` in torch). -/
def tmul (a b : Tensor) : Tensor := ⟨a.shape, List.zipWith (· * ·) a.data b.data⟩

/-- Scalar multiple of a tensor (`c * t` in torch). -/
def tsmul (c : ℝ) (t : Tensor) : Tensor := t.emap (fun x => c * x)

/-- `nn.ReLU`, elementwise `max 0 x`. -/
def relu (t : Tensor) : Tensor := t.emap (fun x => max x 0)

/-- `torch.sigmoid`, elementwise logistic function. -/
noncomputable def sigmoid (x : ℝ) : ℝ := 1 / (1 + Real.exp (-x))

/-- `torch.sigmoid` applied to a tensor. -/
noncomputable def tsigmoid (t : Tensor) : Tensor := t.emap sigmoid

/-- A noise source: given a shape and a flat index, the sampled value.
`torch.randn_like` draws i.i.d. standard-normal values; the distribution is
outside the embedding, the draws themselves are the function's values. -/
abbrev NoiseSrc := List ℕ → ℕ → ℝ

/-- `torch.randn_like t`: a tensor with `t`'s shape filled from the noise
source. -/
def randn_like (g : NoiseSrc) (t : Tensor) : Tensor :=
  ⟨t.shape, (List.range t.shape.prod).map (g t.shape)⟩

/-- The always-zero noise source ("noise pinned to zero"). -/
def zeroNoise : NoiseSrc := fun _ _ => 0

/-- `nn.Linear(inF, outF)`: a weight matrix (`weight o j`, `o < outF`,
`j < inF`) and a bias vector. -/
structure Linear where
  inF : ℕ
  outF : ℕ
  weight : ℕ → ℕ → ℝ
  bias : ℕ → ℝ

/-- Apply a linear layer to a 2-D input of shape `[b, n]`: requires
`n = inF` (torch raises a size-mismatch error otherwise) and produces the
shape `[b, outF]` with entry `(r, o)` equal to
`bias o + Σ_j weight o j * x[r, j]`. -/
def Linear.apply (l : Linear) (x : Tensor) : Option Tensor :=
  match x.shape with
  | [b, n] =>
    if n = l.inF then
      some ⟨[b, l.outF],
        (List.range (b * l.outF)).map fun k =>
          l.bias (k % l.outF) +
            (Finset.range l.inF).sum fun j =>
              l.weight (k % l.outF) j * x.entry ((k / l.outF) * l.inF + j)⟩
    else none
  | _ => none

/-- einops `rearrange(x, 'b c h w -> b (c h w)')`: flatten each sample;
requires a rank-4 input. -/
def flattenCHW (x : Tensor) : Option Tensor :=
  match x.shape with
  | [b, c, h, w] => some ⟨[b, c * h * w], x.data⟩
  | _ => none

/-- einops `rearrange(x, 'b (c h w) -> b c h w', c, h, w)`: unflatten each
sample; requires a rank-2 input whose second dimension equals `c * h * w`. -/
def unflattenCHW (c h w : ℕ) (x : Tensor) : Option Tensor :=
  match x.shape with
  | [b, n] => if n = c * h * w then some ⟨[b, c, h, w], x.data⟩ else none
  | _ => none

/-- einops `rearrange(img, 'c h w -> 1 c h w')`: add a batch dimension;
requires a rank-3 input. -/
def addBatch (x : Tensor) : Option Tensor :=
  match x.shape with
  | [c, h, w] => some ⟨[1, c, h, w], x.data⟩
  | _ => none

/-- `t.squeeze(0)`: drop dimension 0 when it has size 1, otherwise return
the tensor unchanged. -/
def squeeze0 (x : Tensor) : Tensor :=
  match x.shape with
  | 1 :: rest => ⟨rest, x.data⟩
  | _ => x

/-- The `VariationalAutoencoder` module: the constructor arguments
`input_dim`, `hidden_dim`, `latent_dim` and the parameters of its seven
linear layers (the wiring of each layer's dimensions is fixed below,
exactly as in `__setup_encoder` / `__setup_decoder`). -/
structure VariationalAutoencoder where
  input_dim : ℕ
  hidden_dim : ℕ
  latent_dim : ℕ
  enc_fc1_w : ℕ → ℕ → ℝ
  enc_fc1_b : ℕ → ℝ
  enc_fc2_w : ℕ → ℕ → ℝ
  enc_fc2_b : ℕ → ℝ
  fc_mu_w : ℕ → ℕ → ℝ
  fc_mu_b : ℕ → ℝ
  fc_logvar_w : ℕ → ℕ → ℝ
  fc_logvar_b : ℕ → ℝ
  dec_fc1_w : ℕ → ℕ → ℝ
  dec_fc1_b : ℕ → ℝ
  dec_fc2_w : ℕ → ℕ → ℝ
  dec_fc2_b : ℕ → ℝ
  dec_fc3_w : ℕ → ℕ → ℝ
  dec_fc3_b : ℕ → ℝ

/-- `self.image_width = int(math.sqrt(input_dim))`. -/
def VariationalAutoencoder.image_width (m : VariationalAutoencoder) : ℕ :=
  Nat.sqrt m.input_dim

/-- `self.image_height = int(math.sqrt(input_dim))`. -/
def VariationalAutoencoder.image_height (m : VariationalAutoencoder) : ℕ :=
  Nat.sqrt m.input_dim

/-- `self.enc_fc1 = nn.Linear(input_dim, hidden_dim)`. -/
def VariationalAutoencoder.enc_fc1 (m : VariationalAutoencoder) : Linear :=
  ⟨m.input_dim, m.hidden_dim, m.enc_fc1_w, m.enc_fc1_b⟩

/-- `self.enc_fc2 = nn.Linear(hidden_dim, hidden_dim)`. -/
def VariationalAutoencoder.enc_fc2 (m : VariationalAutoencoder) : Linear :=
  ⟨m.hidden_dim, m.hidden_dim, m.enc_fc2_w, m.enc_fc2_b⟩

/-- `self.fc_mu = nn.Linear(hidden_dim, latent_dim)`. -/
def VariationalAutoencoder.fc_mu (m : VariationalAutoencoder) : Linear :=
  ⟨m.hidden_dim, m.latent_dim, m.fc_mu_w, m.fc_mu_b⟩

/-- `self.fc_logvar = nn.Linear(hidden_dim, latent_dim)`. -/
def VariationalAutoencoder.fc_logvar (m : VariationalAutoencoder) : Linear :=
  ⟨m.hidden_dim, m.latent_dim, m.fc_logvar_w, m.fc_logvar_b⟩

/-- `self.dec_fc1 = nn.Linear(latent_dim, hidden_dim)`. -/
def VariationalAutoencoder.dec_fc1 (m : VariationalAutoencoder) : Linear :=
  ⟨m.latent_dim, m.hidden_dim, m.dec_fc1_w, m.dec_fc1_b⟩

/-- `self.dec_fc2 = nn.Linear(hidden_dim, hidden_dim)`. -/
def VariationalAutoencoder.dec_fc2 (m : VariationalAutoencoder) : Linear :=
  ⟨m.hidden_dim, m.hidden_dim, m.dec_fc2_w, m.dec_fc2_b⟩

/-- `self.dec_fc3 = nn.Linear(hidden_dim, input_dim)`. -/
def VariationalAutoencoder.dec_fc3 (m : VariationalAutoencoder) : Linear :=
  ⟨m.hidden_dim, m.input_dim, m.dec_fc3_w, m.dec_fc3_b⟩

/-- `VariationalAutoencoder.encode`: flatten, two linear+ReLU layers, then
the two independent heads producing (mean, log_var). -/
def VariationalAutoencoder.encode (m : VariationalAutoencoder) (x : Tensor) :
    Option (Tensor × Tensor) := do
  let x0 ← flattenCHW x
  let x1 := relu (← m.enc_fc1.apply x0)
  let x2 := relu (← m.enc_fc2.apply x1)
  let mean ← m.fc_mu.apply x2
  let log_var ← m.fc_logvar.apply x2
  return (mean, log_var)

/-- `VariationalAutoencoder.decode`: two linear+ReLU layers, a final linear
layer through a sigmoid, then reshape to `b c h w` with `c = 1`,
`h = image_width`, `w = image_height` (as written in the source). -/
noncomputable def VariationalAutoencoder.decode (m : VariationalAutoencoder)
    (latent : Tensor) : Option Tensor := do
  let x1 := relu (← m.dec_fc1.apply latent)
  let x2 := relu (← m.dec_fc2.apply x1)
  let x_hat := tsigmoid (← m.dec_fc3.apply x2)
  unflattenCHW 1 m.image_width m.image_height x_hat

/-- `VariationalAutoencoder.reparameterization(mean, var)`:
`epsilon = randn_like(var)`; returns `mean + var * epsilon`.  The `self`
argument is unused apart from device placement (identity here). -/
def VariationalAutoencoder.reparameterization (_m : VariationalAutoencoder)
    (g : NoiseSrc) (mean varr : Tensor) : Tensor :=
  let epsilon := randn_like g varr
  tadd mean (tmul varr epsilon)

/-- Failure modes of a forward pass: a failed `assert` on input shapes, or
a shape error raised by a tensor operation. -/
inductive ModelError
  | assertFail
  | opFail
deriving DecidableEq

/-- Lift a possibly-failing tensor operation into the forward pass. -/
def liftOp {α : Type} : Option α → Except ModelError α
  | none => .error .opFail
  | some a => .ok a

/-- `VariationalAutoencoder.forward`: assert the trailing per-sample shape
is `(1, 28, 28)` (Python `x.shape[-3:] == (1, 28, 28)`), then encode,
reparameterize with standard deviation `exp(0.5 * log_var)`, decode, and
return `(x_reconstructed, mean, log_var)`. -/
noncomputable def VariationalAutoencoder.forward (m : VariationalAutoencoder)
    (g : NoiseSrc) (x : Tensor) : Except ModelError (Tensor × Tensor × Tensor) :=
  if x.shape.drop (x.shape.length - 3) = [1, 28, 28] then do
    let (mean, log_var) ← liftOp (m.encode x)
    let z := m.reparameterization g mean ((tsmul 0.5 log_var).emap Real.exp)
    let x_reconstructed ← liftOp (m.decode z)
    return (x_reconstructed, mean, log_var)
  else .error .assertFail

/-- The `InterpolationModel` module wraps a VAE. -/
structure InterpolationModel where
  vae : VariationalAutoencoder

/-- `InterpolationModel.forward(img1, img2, interpolation)`: assert both
images have shape `(1, 28, 28)`, add a batch dimension to each, encode and
reparameterize each independently (two fresh noise draws `g1`, `g2`),
linearly interpolate the latent vectors, decode, and drop the batch
dimension with `squeeze(0)`. -/
noncomputable def InterpolationModel.forward (im : InterpolationModel)
    (g1 g2 : NoiseSrc) (input_img1 input_img2 : Tensor)
    (interpolation : ℝ) : Except ModelError Tensor :=
  if input_img1.shape = [1, 28, 28] then
    if input_img2.shape = [1, 28, 28] then do
      let i1 ← liftOp (addBatch input_img1)
      let i2 ← liftOp (addBatch input_img2)
      let (mean1, log_var1) ← liftOp (im.vae.encode i1)
      let (mean2, log_var2) ← liftOp (im.vae.encode i2)
      let z1 := im.vae.reparameterization g1 mean1 ((tsmul 0.5 log_var1).emap Real.exp)
      let z2 := im.vae.reparameterization g2 mean2 ((tsmul 0.5 log_var2).emap Real.exp)
      let latent_vector := tadd (tsmul (1 - interpolation) z1) (tsmul interpolation z2)
      let interpolated_image ← liftOp (im.vae.decode latent_vector)
      return squeeze0 interpolated_image
    else .error .assertFail
  else .error .assertFail

/-- The parameter keys of a standalone `VariationalAutoencoder` state dict:
one `.weight` and one `.bias` per linear layer attribute. -/
def vaeStateKeys : List String :=
  ["enc_fc1.weight", "enc_fc1.bias", "enc_fc2.weight", "enc_fc2.bias",
   "fc_mu.weight", "fc_mu.bias", "fc_logvar.weight", "fc_logvar.bias",
   "dec_fc1.weight", "dec_fc1.bias", "dec_fc2.weight", "dec_fc2.bias",
   "dec_fc3.weight", "dec_fc3.bias"]

/-- Python `str.replace("vae.", "")` on a character list: remove every
(left-to-right, non-overlapping) occurrence of `vae.`.  The fuel argument
is an upper bound on the number of steps; each step consumes at least one
character, so the string's length suffices. -/
def stripVaeAux : ℕ → List Char → List Char
  | 0, s => s
  | _ + 1, [] => []
  | fuel + 1, c :: rest =>
    if c :: rest.take 3 = ['v', 'a', 'e', '.'] then stripVaeAux fuel (rest.drop 3)
    else c :: stripVaeAux fuel rest

/-- Python `k.replace("vae.", "")` on a string. -/
def stripVae (s : String) : String := ⟨stripVaeAux s.data.length s.data⟩

/-- `new_state_dict = {k.replace("vae.", ""): v for k, v in state_dict.items()}`
on a state dict modelled as an association list. -/
def new_state_dict {α : Type} (d : List (String × α)) : List (String × α) :=
  d.map fun kv => (stripVae kv.1, kv.2)

/-! ## Concrete instances used by witnesses -/

/-- The all-zero weight matrix. -/
def zeroW : ℕ → ℕ → ℝ := fun _ _ => 0

/-- The all-zero bias vector. -/
def zeroB : ℕ → ℝ := fun _ => 0

/-- A concrete VAE with the MNIST input size (`input_dim = 784`),
degenerate hidden and latent sizes, and zero weights. -/
def mnistZeroVAE : VariationalAutoencoder :=
  ⟨784, 0, 0, zeroW, zeroB, zeroW, zeroB, zeroW, zeroB, zeroW, zeroB,
   zeroW, zeroB, zeroW, zeroB, zeroW, zeroB⟩

/-- A concrete VAE whose `input_dim = 5` is not a perfect square. -/
def nonSquareVAE : VariationalAutoencoder :=
  ⟨5, 0, 0, zeroW, zeroB, zeroW, zeroB, zeroW, zeroB, zeroW, zeroB,
   zeroW, zeroB, zeroW, zeroB, zeroW, zeroB⟩

/-- A concrete all-zero single image of shape `(1, 28, 28)`. -/
def img28 : Tensor := ⟨[1, 28, 28], List.replicate 784 0⟩

/-- A concrete all-zero batched image of shape `(1, 1, 28, 28)`. -/
def batchedImg28 : Tensor := ⟨[1, 1, 28, 28], List.replicate 784 0⟩

/-- A concrete tensor of shape `(2, 3)` filled with ones. -/
def onesT23 : Tensor := ⟨[2, 3], List.replicate 6 1⟩

/-- The composition the spec claims for `VariationalAutoencoder.forward`:
encode, exponentiate half the log-variance to get the standard deviation,
reparameterize, decode, and return the reconstruction together with the
untouched encoder outputs. -/
noncomputable def forwardComposition (m : VariationalAutoencoder)
    (g : NoiseSrc) (x : Tensor) : Except ModelError (Tensor × Tensor × Tensor) := do
  let (mean, log_var) ← liftOp (m.encode x)
  let x_reconstructed ← liftOp (m.decode
    (m.reparameterization g mean ((tsmul 0.5 log_var).emap Real.exp)))
  return (x_reconstructed, mean, log_var)

/-- The endpoint composition from the claim: add a batch dimension, encode,
reparameterize with standard deviation `exp(0.5 * log_var)`, decode, and
remove the batch dimension again. -/
noncomputable def interpEndpoint (m : VariationalAutoencoder) (g : NoiseSrc)
    (img : Tensor) : Except ModelError Tensor := do
  let i ← liftOp (addBatch img)
  let (mean, log_var) ← liftOp (m.encode i)
  let r ← liftOp (m.decode
    (m.reparameterization g mean ((tsmul 0.5 log_var).emap Real.exp)))
  return squeeze0 r

/-! ## Helper lemmas about the embedded operations -/

lemma liftOp_some {α : Type} (a : α) : liftOp (some a) = .ok a := rfl

lemma liftOp_none {α : Type} : (liftOp (none : Option α)) = .error .opFail := rfl

lemma Linear.apply_shape (l : Linear) (b : ℕ) (x : Tensor)
    (hx : x.shape = [b, l.inF]) :
    ∃ e : List ℝ, e.length = b * l.outF ∧ l.apply x = some ⟨[b, l.outF], e⟩ := by
  obtain ⟨s, d⟩ := x
  obtain rfl : s = [b, l.inF] := hx
  refine ⟨(List.range (b * l.outF)).map fun k =>
      l.bias (k % l.outF) +
        (Finset.range l.inF).sum fun j =>
          l.weight (k % l.outF) j *
            (⟨[b, l.inF], d⟩ : Tensor).entry ((k / l.outF) * l.inF + j),
    by simp, by simp [Linear.apply]⟩

lemma Linear.apply_ne (l : Linear) (b n : ℕ) (d : List ℝ) (hn : n ≠ l.inF) :
    l.apply ⟨[b, n], d⟩ = none := by
  simp [Linear.apply, hn]

lemma encode_spec (m : VariationalAutoencoder) (b c h w : ℕ) (d : List ℝ)
    (hm : c * h * w = m.input_dim) :
    ∃ mean log_var : Tensor,
      m.encode ⟨[b, c, h, w], d⟩ = some (mean, log_var) ∧
      mean.shape = [b, m.latent_dim] ∧ mean.data.length = b * m.latent_dim ∧
      log_var.shape = [b, m.latent_dim] ∧ log_var.data.length = b * m.latent_dim := by
  obtain ⟨e1, hl1, h1⟩ :=
    Linear.apply_shape m.enc_fc1 b ⟨[b, c * h * w], d⟩ (by simp [VariationalAutoencoder.enc_fc1, hm])
  obtain ⟨e2, hl2, h2⟩ :=
    Linear.apply_shape m.enc_fc2 b (relu ⟨[b, m.enc_fc1.outF], e1⟩) rfl
  obtain ⟨emu, hlmu, hmu⟩ :=
    Linear.apply_shape m.fc_mu b (relu ⟨[b, m.enc_fc2.outF], e2⟩) rfl
  obtain ⟨elv, hllv, hlv⟩ :=
    Linear.apply_shape m.fc_logvar b (relu ⟨[b, m.enc_fc2.outF], e2⟩) rfl
  refine ⟨⟨[b, m.fc_mu.outF], emu⟩, ⟨[b, m.fc_logvar.outF], elv⟩, ?_, rfl, hlmu, rfl, hllv⟩
  simp only [VariationalAutoencoder.encode, flattenCHW, Option.bind_eq_bind,
    Option.some_bind, h1, h2, hmu, hlv, Option.pure_def]

lemma encode_fail (m : VariationalAutoencoder) (x : Tensor)
    (hx : ∀ b c h w, x.shape = [b, c, h, w] → c * h * w ≠ m.input_dim) :
    m.encode x = none := by
  obtain ⟨s, d⟩ := x
  rcases s with _ | ⟨a, _ | ⟨b2, _ | ⟨c2, _ | ⟨d2, _ | ⟨e2, rest⟩⟩⟩⟩⟩
  · simp [VariationalAutoencoder.encode, flattenCHW]
  · simp [VariationalAutoencoder.encode, flattenCHW]
  · simp [VariationalAutoencoder.encode, flattenCHW]
  · simp [VariationalAutoencoder.encode, flattenCHW]
  · have hne := hx a b2 c2 d2 rfl
    simp [VariationalAutoencoder.encode, flattenCHW,
      Linear.apply_ne m.enc_fc1 a (b2 * c2 * d2) d hne]
  · simp [VariationalAutoencoder.encode, flattenCHW]

lemma decode_spec (m : VariationalAutoencoder) (b : ℕ) (z : Tensor)
    (hz : z.shape = [b, m.latent_dim])
    (hsq : m.input_dim = 1 * m.image_width * m.image_height) :
    ∃ u : List ℝ, u.length = b * m.input_dim ∧
      m.decode z = some ⟨[b, 1, m.image_width, m.image_height], u.map sigmoid⟩ := by
  obtain ⟨u1, hl1, h1⟩ := Linear.apply_shape m.dec_fc1 b z hz
  obtain ⟨u2, hl2, h2⟩ :=
    Linear.apply_shape m.dec_fc2 b (relu ⟨[b, m.dec_fc1.outF], u1⟩) rfl
  obtain ⟨u3, hl3, h3⟩ :=
    Linear.apply_shape m.dec_fc3 b (relu ⟨[b, m.dec_fc2.outF], u2⟩) rfl
  refine ⟨u3, hl3, ?_⟩
  simp only [VariationalAutoencoder.decode, Option.bind_eq_bind, Option.some_bind,
    h1, h2, h3, tsigmoid, Tensor.emap, unflattenCHW]
  have houtF : m.dec_fc3.outF = m.input_dim := rfl
  rw [houtF, if_pos hsq]

lemma decode_fail (m : VariationalAutoencoder) (b : ℕ) (z : Tensor)
    (hz : z.shape = [b, m.latent_dim])
    (hne : m.input_dim ≠ 1 * m.image_width * m.image_height) :
    m.decode z = none := by
  obtain ⟨u1, hl1, h1⟩ := Linear.apply_shape m.dec_fc1 b z hz
  obtain ⟨u2, hl2, h2⟩ :=
    Linear.apply_shape m.dec_fc2 b (relu ⟨[b, m.dec_fc1.outF], u1⟩) rfl
  obtain ⟨u3, hl3, h3⟩ :=
    Linear.apply_shape m.dec_fc3 b (relu ⟨[b, m.dec_fc2.outF], u2⟩) rfl
  simp only [VariationalAutoencoder.decode, Option.bind_eq_bind, Option.some_bind,
    h1, h2, h3, tsigmoid, Tensor.emap, unflattenCHW]
  have houtF : m.dec_fc3.outF = m.input_dim := rfl
  rw [houtF, if_neg hne]

lemma reparameterization_eq (m : VariationalAutoencoder) (g : NoiseSrc)
    (mean varr : Tensor) :
    m.reparameterization g mean varr = tadd mean (tmul varr (randn_like g varr)) := rfl

lemma reparameterization_shape (m : VariationalAutoencoder) (g : NoiseSrc)
    (mean varr : Tensor) :
    (m.reparameterization g mean varr).shape = mean.shape := rfl

lemma reparameterization_length (m : VariationalAutoencoder) (g : NoiseSrc)
    (mean varr : Tensor) :
    (m.reparameterization g mean varr).data.length =
      min mean.data.length (min varr.data.length varr.shape.prod) := by
  simp [VariationalAutoencoder.reparameterization, tadd, tmul, randn_like]

lemma emap_shape (f : ℝ → ℝ) (t : Tensor) : (t.emap f).shape = t.shape := rfl

lemma emap_length (f : ℝ → ℝ) (t : Tensor) :
    (t.emap f).data.length = t.data.length := by
  simp [Tensor.emap]

lemma tsmul_one (t : Tensor) : tsmul 1 t = t := by
  obtain ⟨s, d⟩ := t
  simp [tsmul, Tensor.emap]

lemma zip_add_map_zero_right :
    ∀ (a b : List ℝ), a.length ≤ b.length →
      List.zipWith (· + ·) a (b.map fun x => 0 * x) = a := by
  intro a
  induction a with
  | nil => intro b _; simp
  | cons x xs ih =>
    intro b hb
    cases b with
    | nil => simp at hb
    | cons y ys =>
      simp only [List.length_cons, Nat.succ_le_succ_iff] at hb
      simp only [List.map_cons, List.zipWith_cons_cons]
      rw [zero_mul, add_zero, ih ys hb]

lemma zip_add_map_zero_left :
    ∀ (b a : List ℝ), b.length ≤ a.length →
      List.zipWith (· + ·) (a.map fun x => 0 * x) b = b := by
  intro b
  induction b with
  | nil => intro a _; simp
  | cons y ys ih =>
    intro a ha
    cases a with
    | nil => simp at ha
    | cons x xs =>
      simp only [List.length_cons, Nat.succ_le_succ_iff] at ha
      simp only [List.map_cons, List.zipWith_cons_cons]
      rw [zero_mul, zero_add, ih xs ha]

lemma blend_zero (z1 z2 : Tensor) (hl : z1.data.length ≤ z2.data.length) :
    tadd (tsmul (1 - (0 : ℝ)) z1) (tsmul 0 z2) = z1 := by
  have h1 : (1 - (0 : ℝ)) = 1 := by norm_num
  rw [h1, tsmul_one]
  obtain ⟨s, d⟩ := z1
  simp only [tadd, tsmul, Tensor.emap]
  exact congrArg (Tensor.mk s) (zip_add_map_zero_right d z2.data hl)

lemma blend_one (z1 z2 : Tensor) (hs : z1.shape = z2.shape)
    (hl : z2.data.length ≤ z1.data.length) :
    tadd (tsmul (1 - (1 : ℝ)) z1) (tsmul 1 z2) = z2 := by
  have h1 : (1 - (1 : ℝ)) = 0 := by norm_num
  rw [h1, tsmul_one]
  obtain ⟨s2, d2⟩ := z2
  simp only [tadd, tsmul, Tensor.emap]
  exact congrArg₂ Tensor.mk hs (zip_add_map_zero_left d2 z1.data hl)

lemma sigmoid_pos (x : ℝ) : 0 < sigmoid x := by
  unfold sigmoid
  positivity

lemma sigmoid_lt_one (x : ℝ) : sigmoid x < 1 := by
  unfold sigmoid
  rw [div_lt_one (by positivity)]
  linarith [Real.exp_pos (-x)]

lemma sqrt_784 : Nat.sqrt 784 = 28 :=
  (Nat.eq_sqrt.mpr (by norm_num)).symm

lemma sqrt_5 : Nat.sqrt 5 = 2 :=
  (Nat.eq_sqrt.mpr (by norm_num)).symm

lemma isSquare_iff_sqrt_mul_self (n : ℕ) :
    IsSquare n ↔ Nat.sqrt n * Nat.sqrt n = n := by
  rw [← Nat.exists_mul_self]
  constructor
  · rintro ⟨r, rfl⟩
    exact ⟨r, rfl⟩
  · rintro ⟨r, h⟩
    exact ⟨r, h.symm⟩

lemma zipWith_mul_replicate_zero :
    ∀ (a : List ℝ) (n : ℕ),
      List.zipWith (· * ·) a (List.replicate n 0) =
        List.replicate (min a.length n) 0 := by
  intro a
  induction a with
  | nil => intro n; simp
  | cons x xs ih =>
    intro n
    cases n with
    | zero => simp
    | succ k =>
      simp [List.replicate_succ, List.zipWith_cons_cons, mul_zero, ih k,
        Nat.succ_min_succ]

lemma zipWith_add_replicate_zero :
    ∀ (a : List ℝ) (n : ℕ), a.length ≤ n →
      List.zipWith (· + ·) a (List.replicate n 0) = a := by
  intro a
  induction a with
  | nil => intro n _; simp
  | cons x xs ih =>
    intro n hn
    cases n with
    | zero => simp at hn
    | succ k =>
      simp only [List.length_cons, Nat.succ_le_succ_iff] at hn
      simp [List.replicate_succ, List.zipWith_cons_cons, add_zero, ih k hn]

/-! ## Claims -/

/-- C1: for every input `x` whose per-sample shape passes the assertion,
`VariationalAutoencoder.forward` returns exactly the composition
`decode (reparameterization (mean, exp (0.5 * log_var)))` paired with the
untouched encoder outputs `(mean, log_var)`. -/
theorem vae_forward_is_composition (m : VariationalAutoencoder) (g : NoiseSrc)
    (x : Tensor) (h : x.shape.drop (x.shape.length - 3) = [1, 28, 28]) :
    m.forward g x = forwardComposition m g x := by
  unfold VariationalAutoencoder.forward forwardComposition
  rw [if_pos h]

theorem vae_forward_is_composition_witness :
    mnistZeroVAE.forward zeroNoise batchedImg28 =
      forwardComposition mnistZeroVAE zeroNoise batchedImg28 :=
  vae_forward_is_composition mnistZeroVAE zeroNoise batchedImg28 (by decide)

/-- C2: `reparameterization mean s` returns `mean + s ⊙ ε` where `ε` is the
noise drawn (by `randn_like`) with `s`'s shape, so the second argument acts
as a standard deviation multiplying the noise; and with the noise source
pinned to zero the result is exactly `mean`. -/
theorem reparameterization_mean_plus_scaled_noise (m : VariationalAutoencoder)
    (g : NoiseSrc) (mean s : Tensor) (hsh : s.shape = mean.shape)
    (hm : mean.wf) (hs : s.wf) :
    m.reparameterization g mean s = tadd mean (tmul s (randn_like g s)) ∧
    m.reparameterization zeroNoise mean s = mean := by
  refine ⟨rfl, ?_⟩
  obtain ⟨sm, dm⟩ := mean
  obtain ⟨ss, ds⟩ := s
  obtain rfl : ss = sm := hsh
  have hm' : dm.length = ss.prod := hm
  have hs' : ds.length = ss.prod := hs
  show tadd ⟨ss, dm⟩ (tmul ⟨ss, ds⟩ (randn_like zeroNoise ⟨ss, ds⟩)) = ⟨ss, dm⟩
  simp only [tadd, tmul, randn_like, zeroNoise]
  refine congrArg (Tensor.mk ss) ?_
  rw [show (List.range ss.prod).map (zeroNoise ss) =
        List.replicate ss.prod (0 : ℝ) by
      rw [show zeroNoise ss = fun _ => (0 : ℝ) from rfl]
      simp]
  rw [zipWith_mul_replicate_zero]
  exact zipWith_add_replicate_zero dm _ (by omega)

theorem reparameterization_mean_plus_scaled_noise_witness :
    (mnistZeroVAE.reparameterization zeroNoise onesT23 onesT23 =
      tadd onesT23 (tmul onesT23 (randn_like zeroNoise onesT23))) ∧
    mnistZeroVAE.reparameterization zeroNoise onesT23 onesT23 = onesT23 :=
  reparameterization_mean_plus_scaled_noise mnistZeroVAE zeroNoise onesT23
    onesT23 rfl (by simp [Tensor.wf, onesT23]) (by simp [Tensor.wf, onesT23])

/-- C6: for every configuration and every input batch whose per-sample
entries flatten to `input_dim` many, `encode` returns a mean and a
log-variance, each of shape `(batch_size, latent_dim)`. -/
theorem encode_output_shapes (m : VariationalAutoencoder) (b c h w : ℕ)
    (d : List ℝ) (hm : c * h * w = m.input_dim) :
    ∃ mean log_var : Tensor,
      m.encode ⟨[b, c, h, w], d⟩ = some (mean, log_var) ∧
      mean.shape = [b, m.latent_dim] ∧ log_var.shape = [b, m.latent_dim] := by
  obtain ⟨mean, log_var, he, hms, _, hlvs, _⟩ := encode_spec m b c h w d hm
  exact ⟨mean, log_var, he, hms, hlvs⟩

theorem encode_output_shapes_witness :
    ∃ mean log_var : Tensor,
      mnistZeroVAE.encode ⟨[1, 1, 28, 28], List.replicate 784 0⟩ =
        some (mean, log_var) ∧
      mean.shape = [1, mnistZeroVAE.latent_dim] ∧
      log_var.shape = [1, mnistZeroVAE.latent_dim] :=
  encode_output_shapes mnistZeroVAE 1 1 28 28 (List.replicate 784 0) (by decide)

/-- C7: `VariationalAutoencoder.forward` fails with the assertion error
whenever the trailing three dimensions of the input differ from
`(1, 28, 28)`, and `InterpolationModel.forward` fails with the assertion
error whenever either image's shape differs from `(1, 28, 28)`.  Both
assertions are evaluated before the encode/sample/decode pipeline runs, and
the embedding is pure, so a failing call performs no partial computation
and leaves the model unchanged. -/
theorem forward_shape_assertions :
    (∀ (m : VariationalAutoencoder) (g : NoiseSrc) (x : Tensor),
        x.shape.drop (x.shape.length - 3) ≠ [1, 28, 28] →
        m.forward g x = .error .assertFail) ∧
    (∀ (im : InterpolationModel) (g1 g2 : NoiseSrc) (img1 img2 : Tensor)
        (t : ℝ),
        img1.shape ≠ [1, 28, 28] ∨ img2.shape ≠ [1, 28, 28] →
        im.forward g1 g2 img1 img2 t = .error .assertFail) := by
  constructor
  · intro m g x hx
    unfold VariationalAutoencoder.forward
    rw [if_neg hx]
  · intro im g1 g2 img1 img2 t h
    unfold InterpolationModel.forward
    rcases h with h1 | h2
    · rw [if_neg h1]
    · by_cases h1 : img1.shape = [1, 28, 28]
      · rw [if_pos h1, if_neg h2]
      · rw [if_neg h1]

theorem forward_shape_assertions_witness :
    mnistZeroVAE.forward zeroNoise ⟨[2, 3, 28, 28], []⟩ = .error .assertFail ∧
    InterpolationModel.forward ⟨mnistZeroVAE⟩ zeroNoise zeroNoise
      ⟨[1, 32, 32], []⟩ ⟨[1, 28, 28], []⟩ 0 = .error .assertFail :=
  ⟨forward_shape_assertions.1 mnistZeroVAE zeroNoise ⟨[2, 3, 28, 28], []⟩
      (by decide),
   forward_shape_assertions.2 ⟨mnistZeroVAE⟩ zeroNoise zeroNoise
      ⟨[1, 32, 32], []⟩ ⟨[1, 28, 28], []⟩ 0 (Or.inl (by decide))⟩

/-- C9: loading a composed checkpoint strips the `vae.` namespacing prefix
from each parameter key and leaves the rest of every key (and every value)
unchanged: applying the key transformation of
`MNISTInterpolationModel.__init__` to the composed state dict produces
exactly the standalone VAE's keys. -/
theorem checkpoint_prefix_strip :
    new_state_dict (vaeStateKeys.map fun k => ("vae." ++ k, k)) =
      vaeStateKeys.map fun k => (k, k) := by decide

/-- C5: for every latent batch of shape `(b, latent_dim)` and the 28×28
configuration (`input_dim = 784`), `decode` returns a tensor of shape
`(b, 1, 28, 28)` all of whose elements are strictly between 0 and 1. -/
theorem decode_shape_and_range (m : VariationalAutoencoder) (b : ℕ)
    (z : Tensor) (hz : z.shape = [b, m.latent_dim]) (hd : m.input_dim = 784) :
    ∃ r : Tensor, m.decode z = some r ∧ r.shape = [b, 1, 28, 28] ∧
      ∀ v ∈ r.data, 0 < v ∧ v < 1 := by
  have hW : m.image_width = 28 := by
    unfold VariationalAutoencoder.image_width
    rw [hd, sqrt_784]
  have hH : m.image_height = 28 := by
    unfold VariationalAutoencoder.image_height
    rw [hd, sqrt_784]
  obtain ⟨u, hu, hdec⟩ := decode_spec m b z hz (by rw [hd, hW, hH])
  refine ⟨⟨[b, 1, m.image_width, m.image_height], u.map sigmoid⟩, hdec, ?_, ?_⟩
  · show [b, 1, m.image_width, m.image_height] = [b, 1, 28, 28]
    rw [hW, hH]
  · intro v hv
    obtain ⟨x, _, rfl⟩ := List.mem_map.mp hv
    exact ⟨sigmoid_pos x, sigmoid_lt_one x⟩

theorem decode_shape_and_range_witness :
    ∃ r : Tensor, mnistZeroVAE.decode ⟨[1, 0], []⟩ = some r ∧
      r.shape = [1, 1, 28, 28] ∧ ∀ v ∈ r.data, 0 < v ∧ v < 1 :=
  decode_shape_and_range mnistZeroVAE 1 ⟨[1, 0], []⟩ rfl rfl

/-- C10: the constructor sets `image_width` and `image_height` both to
`⌊√input_dim⌋`, and for a non-perfect-square `input_dim` the decode reshape
cannot succeed: `1 * image_height * image_width ≠ input_dim` and `decode`
fails on every latent batch. -/
theorem image_dims_sqrt_and_decode_nonsquare (m : VariationalAutoencoder)
    (b : ℕ) (z : Tensor) (hz : z.shape = [b, m.latent_dim])
    (hns : ¬ IsSquare m.input_dim) :
    m.image_width = Nat.sqrt m.input_dim ∧
    m.image_height = Nat.sqrt m.input_dim ∧
    1 * m.image_height * m.image_width ≠ m.input_dim ∧
    m.decode z = none := by
  rw [isSquare_iff_sqrt_mul_self] at hns
  refine ⟨rfl, rfl, ?_, ?_⟩
  · show 1 * Nat.sqrt m.input_dim * Nat.sqrt m.input_dim ≠ m.input_dim
    rw [one_mul]
    exact hns
  · refine decode_fail m b z hz ?_
    intro hc
    apply hns
    have hww : (1 : ℕ) * m.image_width * m.image_height =
        Nat.sqrt m.input_dim * Nat.sqrt m.input_dim := by
      unfold VariationalAutoencoder.image_width VariationalAutoencoder.image_height
      rw [one_mul]
    rw [hww] at hc
    exact hc.symm

theorem image_dims_sqrt_and_decode_nonsquare_witness :
    nonSquareVAE.image_width = Nat.sqrt nonSquareVAE.input_dim ∧
    nonSquareVAE.image_height = Nat.sqrt nonSquareVAE.input_dim ∧
    1 * nonSquareVAE.image_height * nonSquareVAE.image_width ≠
      nonSquareVAE.input_dim ∧
    nonSquareVAE.decode ⟨[1, 0], []⟩ = none :=
  image_dims_sqrt_and_decode_nonsquare nonSquareVAE 1 ⟨[1, 0], []⟩ rfl
    (by
      rw [isSquare_iff_sqrt_mul_self]
      show ¬(Nat.sqrt 5 * Nat.sqrt 5 = 5)
      rw [sqrt_5]
      decide)

/-- C8 is refuted by this counterexample: `encode` succeeds on an input
whose per-sample shape `(2, 14, 28)` differs from the configured
`(1, image_height, image_width) = (1, 28, 28)`, because only the flattened
size `2 * 14 * 28 = 784 = input_dim` is checked. -/
theorem encode_accepts_mismatched_shape :
    mnistZeroVAE.encode ⟨[1, 2, 14, 28], List.replicate 784 0⟩ =
      some (⟨[1, 0], []⟩, ⟨[1, 0], []⟩) ∧
    ([2, 14, 28] : List ℕ) ≠
      [1, mnistZeroVAE.image_height, mnistZeroVAE.image_width] :=
  ⟨rfl, by simp⟩

/-- C8 (amended): `encode` fails with a shape error whenever the input's
per-sample entries do not flatten to `input_dim` many (in particular on any
non-rank-4 input); matching the configured channel/height/width
individually is not required, only the flattened size is checked. -/
theorem encode_fails_on_flattened_size_mismatch (m : VariationalAutoencoder)
    (x : Tensor)
    (hx : ∀ b c h w, x.shape = [b, c, h, w] → c * h * w ≠ m.input_dim) :
    m.encode x = none :=
  encode_fail m x hx

theorem encode_fails_on_flattened_size_mismatch_witness :
    mnistZeroVAE.encode ⟨[1, 3, 28, 28], []⟩ = none :=
  encode_fails_on_flattened_size_mismatch mnistZeroVAE ⟨[1, 3, 28, 28], []⟩
    (by
      rintro b c h w hs
      obtain ⟨rfl, rfl, rfl, rfl⟩ : 1 = b ∧ 3 = c ∧ 28 = h ∧ 28 = w := by
        simpa using hs
      decide)

lemma ok_bind {α β : Type} (a : α) (f : α → Except ModelError β) :
    (Except.ok a : Except ModelError α) >>= f = f a := rfl

lemma error_bind {α β : Type} (e : ModelError) (f : α → Except ModelError β) :
    (Except.error e : Except ModelError α) >>= f = .error e := rfl

lemma interp_forward_unfold (im : InterpolationModel) (g1 g2 : NoiseSrc)
    (d1 d2 : List ℝ) (t : ℝ) :
    InterpolationModel.forward im g1 g2 ⟨[1, 28, 28], d1⟩ ⟨[1, 28, 28], d2⟩ t =
      (do
        let (mean1, log_var1) ← liftOp (im.vae.encode ⟨[1, 1, 28, 28], d1⟩)
        let (mean2, log_var2) ← liftOp (im.vae.encode ⟨[1, 1, 28, 28], d2⟩)
        let z1 := im.vae.reparameterization g1 mean1
          ((tsmul 0.5 log_var1).emap Real.exp)
        let z2 := im.vae.reparameterization g2 mean2
          ((tsmul 0.5 log_var2).emap Real.exp)
        let r ← liftOp (im.vae.decode (tadd (tsmul (1 - t) z1) (tsmul t z2)))
        return squeeze0 r) := by
  unfold InterpolationModel.forward
  rw [if_pos rfl, if_pos rfl]
  rfl

lemma interpEndpoint_unfold (m : VariationalAutoencoder) (g : NoiseSrc)
    (d : List ℝ) :
    interpEndpoint m g ⟨[1, 28, 28], d⟩ =
      (do
        let (mean, log_var) ← liftOp (m.encode ⟨[1, 1, 28, 28], d⟩)
        let r ← liftOp (m.decode
          (m.reparameterization g mean ((tsmul 0.5 log_var).emap Real.exp)))
        return squeeze0 r) := rfl

/-- C3: with the noise source pinned (the same source `g` feeding both
latent draws and both expressions), interpolation at `t = 0` equals the
decode-reparameterize-encode pipeline on `img1` (batch dimension added then
removed), and at `t = 1` the analogous pipeline on `img2`. -/
theorem interpolation_endpoints (im : InterpolationModel) (g : NoiseSrc)
    (img1 img2 : Tensor) (h1 : img1.shape = [1, 28, 28])
    (h2 : img2.shape = [1, 28, 28]) :
    im.forward g g img1 img2 0 = interpEndpoint im.vae g img1 ∧
    im.forward g g img1 img2 1 = interpEndpoint im.vae g img2 := by
  obtain ⟨s1, d1⟩ := img1
  obtain rfl : s1 = [1, 28, 28] := h1
  obtain ⟨s2, d2⟩ := img2
  obtain rfl : s2 = [1, 28, 28] := h2
  by_cases hdim : im.vae.input_dim = 784
  · obtain ⟨mean1, lv1, henc1, hms1, hml1, hlvs1, hlvl1⟩ :=
      encode_spec im.vae 1 1 28 28 d1 (by rw [hdim])
    obtain ⟨mean2, lv2, henc2, hms2, hml2, hlvs2, hlvl2⟩ :=
      encode_spec im.vae 1 1 28 28 d2 (by rw [hdim])
    have hv1len : ((tsmul 0.5 lv1).emap Real.exp).data.length =
        1 * im.vae.latent_dim := by
      rw [emap_length, show tsmul (0.5 : ℝ) lv1 =
        lv1.emap (fun x => (0.5 : ℝ) * x) from rfl, emap_length, hlvl1]
    have hv2len : ((tsmul 0.5 lv2).emap Real.exp).data.length =
        1 * im.vae.latent_dim := by
      rw [emap_length, show tsmul (0.5 : ℝ) lv2 =
        lv2.emap (fun x => (0.5 : ℝ) * x) from rfl, emap_length, hlvl2]
    have hv1shape : ((tsmul 0.5 lv1).emap Real.exp).shape =
        [1, im.vae.latent_dim] := hlvs1
    have hv2shape : ((tsmul 0.5 lv2).emap Real.exp).shape =
        [1, im.vae.latent_dim] := hlvs2
    have hz1 : (im.vae.reparameterization g mean1
        ((tsmul 0.5 lv1).emap Real.exp)).data.length = im.vae.latent_dim := by
      rw [reparameterization_length, hml1, hv1len, hv1shape]
      simp
    have hz2 : (im.vae.reparameterization g mean2
        ((tsmul 0.5 lv2).emap Real.exp)).data.length = im.vae.latent_dim := by
      rw [reparameterization_length, hml2, hv2len, hv2shape]
      simp
    constructor
    · rw [interp_forward_unfold, interpEndpoint_unfold, henc1, henc2]
      simp only [liftOp_some, ok_bind]
      rw [blend_zero _ _ (le_of_eq (by rw [hz1, hz2]))]
    · rw [interp_forward_unfold, interpEndpoint_unfold, henc1, henc2]
      simp only [liftOp_some, ok_bind]
      rw [blend_one _ _
        (by simp only [reparameterization_shape]; rw [hms1, hms2])
        (le_of_eq (by rw [hz1, hz2]))]
  · have henc1 : im.vae.encode ⟨[1, 1, 28, 28], d1⟩ = none := by
      refine encode_fail im.vae _ ?_
      rintro b c h w hs
      obtain ⟨rfl, rfl, rfl, rfl⟩ : 1 = b ∧ 1 = c ∧ 28 = h ∧ 28 = w := by
        simpa using hs
      intro hc
      apply hdim
      omega
    have henc2 : im.vae.encode ⟨[1, 1, 28, 28], d2⟩ = none := by
      refine encode_fail im.vae _ ?_
      rintro b c h w hs
      obtain ⟨rfl, rfl, rfl, rfl⟩ : 1 = b ∧ 1 = c ∧ 28 = h ∧ 28 = w := by
        simpa using hs
      intro hc
      apply hdim
      omega
    constructor
    · rw [interp_forward_unfold, interpEndpoint_unfold, henc1]
      simp only [liftOp_none, error_bind]
    · rw [interp_forward_unfold, interpEndpoint_unfold, henc1, henc2]
      simp only [liftOp_none, error_bind]

theorem interpolation_endpoints_witness :
    InterpolationModel.forward ⟨mnistZeroVAE⟩ zeroNoise zeroNoise img28 img28 0 =
      interpEndpoint mnistZeroVAE zeroNoise img28 ∧
    InterpolationModel.forward ⟨mnistZeroVAE⟩ zeroNoise zeroNoise img28 img28 1 =
      interpEndpoint mnistZeroVAE zeroNoise img28 :=
  interpolation_endpoints ⟨mnistZeroVAE⟩ zeroNoise img28 img28 rfl rfl

/-- C4: for every pair of `(1, 28, 28)` images and every real interpolation
coefficient `t` (no membership check on `[0, 1]`), the interpolation
forward pass encodes and reparameterizes each image independently into
latent vectors `z1` and `z2`, decodes the blend `(1 − t)·z1 + t·z2`, and
returns it with the batch dimension removed and the channel dimension
retained, i.e. with shape `(1, 28, 28)` (stated for the MNIST
configuration `input_dim = 784` that the wrapped VAE has). -/
theorem interpolation_forward_spec (im : InterpolationModel) (g1 g2 : NoiseSrc)
    (img1 img2 : Tensor) (t : ℝ) (h1 : img1.shape = [1, 28, 28])
    (h2 : img2.shape = [1, 28, 28]) (hd : im.vae.input_dim = 784) :
    ∃ mean1 log_var1 mean2 log_var2 r : Tensor,
      im.vae.encode ⟨[1, 1, 28, 28], img1.data⟩ = some (mean1, log_var1) ∧
      im.vae.encode ⟨[1, 1, 28, 28], img2.data⟩ = some (mean2, log_var2) ∧
      im.vae.decode
        (tadd
          (tsmul (1 - t) (im.vae.reparameterization g1 mean1
            ((tsmul 0.5 log_var1).emap Real.exp)))
          (tsmul t (im.vae.reparameterization g2 mean2
            ((tsmul 0.5 log_var2).emap Real.exp)))) = some r ∧
      im.forward g1 g2 img1 img2 t = .ok (squeeze0 r) ∧
      (squeeze0 r).shape = [1, 28, 28] := by
  obtain ⟨s1, d1⟩ := img1
  obtain rfl : s1 = [1, 28, 28] := h1
  obtain ⟨s2, d2⟩ := img2
  obtain rfl : s2 = [1, 28, 28] := h2
  obtain ⟨mean1, lv1, henc1, hms1, hml1, hlvs1, hlvl1⟩ :=
    encode_spec im.vae 1 1 28 28 d1 (by rw [hd])
  obtain ⟨mean2, lv2, henc2, hms2, hml2, hlvs2, hlvl2⟩ :=
    encode_spec im.vae 1 1 28 28 d2 (by rw [hd])
  have hW : im.vae.image_width = 28 := by
    unfold VariationalAutoencoder.image_width
    rw [hd, sqrt_784]
  have hH : im.vae.image_height = 28 := by
    unfold VariationalAutoencoder.image_height
    rw [hd, sqrt_784]
  have hblendshape :
      (tadd
        (tsmul (1 - t) (im.vae.reparameterization g1 mean1
          ((tsmul 0.5 lv1).emap Real.exp)))
        (tsmul t (im.vae.reparameterization g2 mean2
          ((tsmul 0.5 lv2).emap Real.exp)))).shape = [1, im.vae.latent_dim] := by
    show mean1.shape = [1, im.vae.latent_dim]
    exact hms1
  obtain ⟨u, hulen, hdec⟩ :=
    decode_spec im.vae 1 _ hblendshape (by rw [hd, hW, hH])
  refine ⟨mean1, lv1, mean2, lv2,
    ⟨[1, 1, im.vae.image_width, im.vae.image_height], u.map sigmoid⟩,
    henc1, henc2, hdec, ?_, ?_⟩
  · rw [interp_forward_unfold, henc1, henc2]
    simp only [liftOp_some, ok_bind]
    rw [hdec]
    rfl
  · show ([1, im.vae.image_width, im.vae.image_height] : List ℕ) = [1, 28, 28]
    rw [hW, hH]

theorem interpolation_forward_spec_witness :
    ∃ mean1 log_var1 mean2 log_var2 r : Tensor,
      mnistZeroVAE.encode ⟨[1, 1, 28, 28], img28.data⟩ =
        some (mean1, log_var1) ∧
      mnistZeroVAE.encode ⟨[1, 1, 28, 28], img28.data⟩ =
        some (mean2, log_var2) ∧
      mnistZeroVAE.decode
        (tadd
          (tsmul (1 - (1 / 2 : ℝ)) (mnistZeroVAE.reparameterization zeroNoise
            mean1 ((tsmul 0.5 log_var1).emap Real.exp)))
          (tsmul (1 / 2 : ℝ) (mnistZeroVAE.reparameterization zeroNoise
            mean2 ((tsmul 0.5 log_var2).emap Real.exp)))) = some r ∧
      InterpolationModel.forward ⟨mnistZeroVAE⟩ zeroNoise zeroNoise img28 img28
        (1 / 2) = .ok (squeeze0 r) ∧
      (squeeze0 r).shape = [1, 28, 28] :=
  interpolation_forward_spec ⟨mnistZeroVAE⟩ zeroNoise zeroNoise img28 img28
    (1 / 2) rfl rfl rfl
